import Mathlib

/-!
Verification development for the ufs universal-file-system library.

The Lean definitions below are a shallow embedding of the Python sources:
  ufs/utils/pathlib.py   (SafePurePosixPath, pathparent, pathname)
  ufs/impl/memory.py     (the Memory leaf store)
  ufs/spec.py            (UFS default copy and rename, the atomic and the
                          descriptor bridges, QueuedIterator)
  ufs/impl/overlay.py    (Overlay, specialized at Memory stores)
  ufs/impl/rwcache.py    (RWCache, specialized at Memory stores)
  ufs/access/os.py       (oserror errno translation, UOS.rmdir)
  ufs/access/pathlib.py  (UPath.read_bytes and UPath.write_bytes)
  ufs/access/shutil.py   (movefile, same-store branch)
  ufs/utils/prefix_tree.py and ufs/impl/mapper.py

Conventions of the embedding:
  - byte strings are lists of naturals (Bytes);
  - a path key is its list of components (the stores key their dicts by
    SafePurePosixPath objects, whose equality is equality of the rendered
    absolute string, which for normalized absolute paths is equality of the
    component list);
  - Python object identity for Memory inodes is modeled with an explicit
    heap (arena): the per-path dict stores heap indices, so that the
    aliasing performed by Memory.copy is represented faithfully;
  - each stateful operation takes the store state and returns
    Except (Err × state) (result × state); an error carries the state at
    the moment the exception is raised, as Python mutations performed
    before a raise persist;
  - unbounded while-loops take a fuel argument (an embedding artifact;
    the theorems use concrete inputs where the fuel is never exhausted);
  - timestamps (atime, ctime, mtime) are not modeled: no claim mentions
    them and they come from the wall clock;
  - Python raises TypeError when UPath.write_bytes passes the size hint
    keyword to Memory.open, whose signature lacks it; the embedding drops
    the keyword (Memory ignores size hints), as the claims under study are
    about the byte-level behavior.
-/

set_option maxRecDepth 4000

namespace Ufs

/-- Byte strings, as lists of byte values. -/
abbrev Bytes := List Nat

/-- A normalized absolute path, by its list of name components
(SafePurePosixPath keys, compared by their rendered string). -/
abbrev Key := List String

/-- Render a key the way str(SafePurePosixPath) does. -/
def keyStr (k : Key) : String := "/" ++ String.intercalate "/" k

/-- Messages carried by Python RuntimeError values in the sources
(an inductive stands for the literal message strings). -/
inductive PyMsg where
  | cantMoveIntoItself
  | directoryNotEmpty
  deriving DecidableEq, Repr

/-- The Python exception values raised by the embedded code. -/
inductive Err where
  | fileNotFound (p : String)
  | fileExists
  | isADirectory (p : String)
  | notADirectory (p : String)
  | permissionError
  | runtimeError (m : PyMsg)
  | keyError
  | osError (errno : Nat)
  | notImplemented
  | outOfFuel
  deriving DecidableEq, Repr

/-- File kinds of the FileStat record. -/
inductive FType where
  | file
  | directory
  deriving DecidableEq, Repr

/-- The FileStat record (type and size; timestamps are not modeled). -/
structure FileStat where
  ftype : FType
  size : Nat
  deriving DecidableEq, Repr

/-- Association-list lookup (Python dict read). -/
def alookup {κ α : Type} [DecidableEq κ] : List (κ × α) → κ → Option α
  | [], _ => none
  | (k, v) :: rest, k' => if k = k' then some v else alookup rest k'

/-- Association-list write (Python dict assignment: replace or append). -/
def aset {κ α : Type} [DecidableEq κ] : List (κ × α) → κ → α → List (κ × α)
  | [], k', v' => [(k', v')]
  | (k, v) :: rest, k', v' =>
      if k = k' then (k', v') :: rest else (k, v) :: aset rest k' v'

/-- Association-list delete (Python dict pop or del). -/
def aerase {κ α : Type} [DecidableEq κ] : List (κ × α) → κ → List (κ × α)
  | [], _ => []
  | (k, v) :: rest, k' => if k = k' then rest else (k, v) :: aerase rest k'

/-- pathparent of utils/pathlib.py on a key: the parent key, or none for the
root (whose Python parent string is the empty string, never a dict key). -/
def parentKey : Key → Option Key
  | [] => none
  | k => some k.dropLast

/-- pathname of utils/pathlib.py on a key: the last component. -/
def nameOf (k : Key) : String := k.getLastD "/"

/-- Python open modes used by the embedded code. -/
inductive Mode where
  | rb
  | wb
  | ab
  | rbPlus
  | abPlus
  deriving DecidableEq, Repr

/-- mode.startswith of a literal r, as tested by Memory.open. -/
def Mode.isR : Mode → Bool
  | .rb => true
  | .rbPlus => true
  | _ => false

/-- mode.startswith of a literal a, as tested by Memory.open. -/
def Mode.isA : Mode → Bool
  | .ab => true
  | .abPlus => true
  | _ => false

/-- The literal w appears in the mode string (tested by RWCache.open). -/
def Mode.hasW : Mode → Bool
  | .wb => true
  | _ => false

/-- A Memory inode: the FileStat dict plus the backing bytes
(dataclass MemoryInode of impl/memory.py). -/
structure MemoryInode where
  info : FileStat
  content : Bytes
  deriving DecidableEq, Repr

/-- A Memory file descriptor: its path and the BytesIO stream, modeled as
the buffer plus the cursor (dataclass MemoryFileDescriptor). -/
structure MemoryFD where
  path : Key
  buf : Bytes
  pos : Nat
  deriving DecidableEq, Repr

/-- The state of a Memory store.  The heap is the arena of inode objects;
the inodes dict maps a path to the heap index of its inode, so that two
paths may share one inode (Python object aliasing). -/
structure MemoryState where
  heap : List MemoryInode
  inodes : List (Key × Nat)
  dirs : List (Key × List String)
  cfd : Nat
  fds : List (Nat × MemoryFD)
  deriving DecidableEq, Repr

/-- The fresh Memory store of Memory.init: a root directory and the
descriptor counter starting at 5. -/
def Memory.init : MemoryState :=
  { heap := [{ info := { ftype := .directory, size := 0 }, content := [] }]
    inodes := [([], 0)]
    dirs := [([], [])]
    cfd := 5
    fds := [] }

/-- Dereference a heap index (always valid in reachable states). -/
def heapGet (h : List MemoryInode) (r : Nat) : MemoryInode :=
  h.getD r { info := { ftype := .file, size := 0 }, content := [] }

/-- Update the inode object at a heap index (mutation of a shared object). -/
def heapSet (h : List MemoryInode) (r : Nat) (v : MemoryInode) : List MemoryInode :=
  h.set r v

/-- Every stateful operation returns this shape: an error carries the state
at the raise, a success carries the result and the new state. -/
abbrev MRes (σ α : Type) := Except (Err × σ) (α × σ)

/-- Sequence two stateful results: propagate an exception, otherwise feed
the result and the new state to the continuation. -/
def mbind {σ α β : Type} (x : MRes σ α) (f : α → σ → MRes σ β) : MRes σ β :=
  match x with
  | .error e => .error e
  | .ok (a, s) => f a s

/-- BytesIO.write at a cursor: overwrite in place, zero-fill any gap,
keep the tail beyond the written range. -/
def bytesWrite (buf : Bytes) (pos : Nat) (data : Bytes) : Bytes :=
  buf.take pos ++ List.replicate (pos - buf.length) 0 ++ data ++ buf.drop (pos + data.length)

/-- Memory.ls of impl/memory.py. -/
def Memory.ls (s : MemoryState) (path : Key) : MRes MemoryState (List String) :=
  match alookup s.dirs path with
  | none => .error (.fileNotFound (keyStr path), s)
  | some children => .ok (children, s)

/-- Memory.info of impl/memory.py. -/
def Memory.info (s : MemoryState) (path : Key) : MRes MemoryState FileStat :=
  match alookup s.inodes path with
  | none => .error (.fileNotFound (keyStr path), s)
  | some r => .ok ((heapGet s.heap r).info, s)

/-- Memory.open of impl/memory.py.  Note: a w mode does not truncate; the
stream is seeded with the existing content in every mode, and only an
a mode seeks to the end. -/
def Memory.open' (s : MemoryState) (path : Key) (mode : Mode) : MRes MemoryState Nat :=
  if mode.isR ∧ (alookup s.inodes path).isNone then
    .error (.fileNotFound (keyStr path), s)
  else if (match alookup s.inodes path with
           | some r => decide ((heapGet s.heap r).info.ftype = FType.directory)
           | none => false) then
    .error (.isADirectory (keyStr path), s)
  else
    match parentKey path with
    | none => .error (.fileNotFound "", s)
    | some pp =>
      if (alookup s.dirs pp).isNone then .error (.fileNotFound (keyStr pp), s)
      else
        let s1 : MemoryState :=
          match alookup s.inodes path with
          | some _ => s
          | none =>
            { s with
              heap := s.heap ++ [{ info := { ftype := .file, size := 0 }, content := [] }]
              inodes := aset s.inodes path s.heap.length
              dirs :=
                match alookup s.dirs pp with
                | some cs => aset s.dirs pp (if nameOf path ∈ cs then cs else cs ++ [nameOf path])
                | none => s.dirs }
        let r := (alookup s1.inodes path).getD 0
        let content := (heapGet s1.heap r).content
        let fd := s1.cfd
        .ok (fd,
          { s1 with
            cfd := fd + 1
            fds := aset s1.fds fd
              { path := path, buf := content
                pos := if mode.isA then content.length else 0 } })

/-- Memory.read of impl/memory.py (an amount of -1 reads to the end). -/
def Memory.read (s : MemoryState) (fd : Nat) (amnt : Int) : MRes MemoryState Bytes :=
  match alookup s.fds fd with
  | none => .error (.keyError, s)
  | some d =>
    let rest := d.buf.drop d.pos
    let ret := if amnt < 0 then rest else rest.take amnt.toNat
    .ok (ret, { s with fds := aset s.fds fd { d with pos := d.pos + ret.length } })

/-- Memory.write of impl/memory.py: write into the stream, then update the
size field of the inode currently registered at the descriptor path. -/
def Memory.write (s : MemoryState) (fd : Nat) (data : Bytes) : MRes MemoryState Nat :=
  match alookup s.fds fd with
  | none => .error (.keyError, s)
  | some d =>
    let buf1 := bytesWrite d.buf d.pos data
    let s1 := { s with fds := aset s.fds fd { d with buf := buf1, pos := d.pos + data.length } }
    match alookup s1.inodes d.path with
    | none => .error (.keyError, s1)
    | some r =>
      let ino := heapGet s1.heap r
      .ok (data.length,
        { s1 with heap := heapSet s1.heap r { ino with info := { ino.info with size := buf1.length } } })

/-- The argument Python passes to Memory.close: the signature says int, but
UFS.copy in spec.py passes path objects, so the embedded domain is the sum;
a path key never hits the int-keyed descriptor dict, so popping it raises
KeyError. -/
abbrev FdArg := Sum Nat Key

/-- Memory.close of impl/memory.py: pop the descriptor, then store its
buffer into the inode object shared by every path aliased to it. -/
def Memory.close (s : MemoryState) (k : FdArg) : MRes MemoryState Unit :=
  match k with
  | .inr _ => .error (.keyError, s)
  | .inl fd =>
    match alookup s.fds fd with
    | none => .error (.keyError, s)
    | some d =>
      let s1 := { s with fds := aerase s.fds fd }
      match alookup s1.inodes d.path with
      | none => .error (.keyError, s1)
      | some r =>
        let ino := heapGet s1.heap r
        .ok ((),
          { s1 with
            heap := heapSet s1.heap r
              { info := { ftype := ino.info.ftype, size := d.buf.length }, content := d.buf } })

/-- Memory.unlink of impl/memory.py. -/
def Memory.unlink (s : MemoryState) (path : Key) : MRes MemoryState Unit :=
  match alookup s.inodes path with
  | none => .error (.fileNotFound (keyStr path), s)
  | some r =>
    if (heapGet s.heap r).info.ftype = .directory then
      .error (.isADirectory (keyStr path), s)
    else
      match parentKey path with
      | none => .error (.keyError, s)
      | some pp =>
        match alookup s.dirs pp with
        | none => .error (.keyError, s)
        | some cs =>
          if nameOf path ∈ cs then
            .ok ((),
              { s with
                dirs := aset s.dirs pp (cs.erase (nameOf path))
                inodes := aerase s.inodes path })
          else .error (.keyError, s)

/-- Memory.mkdir of impl/memory.py. -/
def Memory.mkdir (s : MemoryState) (path : Key) : MRes MemoryState Unit :=
  if (alookup s.inodes path).isSome then .error (.fileExists, s)
  else
    match parentKey path with
    | none => .error (.fileNotFound "", s)
    | some pp =>
      match alookup s.dirs pp with
      | none => .error (.fileNotFound (keyStr pp), s)
      | some cs =>
        .ok ((),
          { s with
            heap := s.heap ++ [{ info := { ftype := .directory, size := 0 }, content := [] }]
            inodes := aset s.inodes path s.heap.length
            dirs := aset (aset s.dirs path []) pp
              (if nameOf path ∈ cs then cs else cs ++ [nameOf path]) })

/-- Memory.rmdir of impl/memory.py: a non-empty directory raises
RuntimeError (the literal message is Directory not Empty). -/
def Memory.rmdir (s : MemoryState) (path : Key) : MRes MemoryState Unit :=
  if (alookup s.inodes path).isNone then .error (.fileNotFound (keyStr path), s)
  else if (alookup s.dirs path).isNone then .error (.notADirectory (keyStr path), s)
  else if (alookup s.dirs path).getD [] ≠ [] then
    .error (.runtimeError .directoryNotEmpty, s)
  else
    match parentKey path with
    | none => .error (.keyError, s)
    | some pp =>
      match alookup s.dirs pp with
      | none => .error (.keyError, s)
      | some cs =>
        if nameOf path ∈ cs then
          .ok ((),
            { s with
              dirs := aerase (aset s.dirs pp (cs.erase (nameOf path))) path
              inodes := aerase s.inodes path })
        else .error (.keyError, s)

/-- Memory.copy of impl/memory.py: the destination entry receives the very
same inode object as the source (self underscore inodes at dst is assigned
the object at src), so the two paths alias one heap cell. -/
def Memory.copy (s : MemoryState) (src dst : Key) : MRes MemoryState Unit :=
  match alookup s.inodes src with
  | none => .error (.fileNotFound (keyStr src), s)
  | some r =>
    if (heapGet s.heap r).info.ftype = .directory then
      .error (.isADirectory (keyStr src), s)
    else if (alookup s.inodes dst).isSome then .error (.fileExists, s)
    else
      match parentKey dst with
      | none => .error (.fileNotFound "", s)
      | some pp =>
        match alookup s.dirs pp with
        | none => .error (.fileNotFound (keyStr pp), s)
        | some cs =>
          .ok ((),
            { s with
              inodes := aset s.inodes dst r
              dirs := aset s.dirs pp (if nameOf dst ∈ cs then cs else cs ++ [nameOf dst]) })

/-- UFS.rename of spec.py as inherited by Memory: self.copy then
self.unlink, where self.copy is the overriding Memory.copy. -/
def Memory.rename (s : MemoryState) (src dst : Key) : MRes MemoryState Unit :=
  mbind (Memory.copy s src dst) (fun _ s => Memory.unlink s src)

/-- UFS.CHUNK_SIZE of spec.py. -/
def CHUNK_SIZE : Int := 5 * 1024

/-- The read loop of AtomicFromDescriptorMixin.cat of spec.py, instantiated
at Memory: read CHUNK_SIZE at a time until an empty buffer.  The fuel bounds
the unbounded while-loop (embedding artifact). -/
def Memory.catLoop : Nat → MemoryState → Nat → MRes MemoryState (List Bytes)
  | 0, s, _ => .error (.outOfFuel, s)
  | fuel + 1, s, fd =>
    mbind (Memory.read s fd CHUNK_SIZE) (fun buf s =>
      if buf = [] then .ok ([], s)
      else mbind (Memory.catLoop fuel s fd) (fun bufs s => .ok (buf :: bufs, s)))

/-- UFS.cat of spec.py as inherited by Memory (AtomicFromDescriptorMixin.cat):
open for read, read in chunks, close; yields the list of chunks. -/
def Memory.cat (fuel : Nat) (s : MemoryState) (path : Key) : MRes MemoryState (List Bytes) :=
  mbind (Memory.open' s path .rb) (fun fd s =>
    mbind (Memory.catLoop fuel s fd) (fun bufs s =>
      mbind (Memory.close s (.inl fd)) (fun _ s => .ok (bufs, s))))

/-- The write loop of AtomicFromDescriptorMixin.put of spec.py. -/
def Memory.putLoop : List Bytes → MemoryState → Nat → MRes MemoryState Unit
  | [], s, _ => .ok ((), s)
  | buf :: bufs, s, fd =>
    mbind (Memory.write s fd buf) (fun _ s => Memory.putLoop bufs s fd)

/-- UFS.put of spec.py as inherited by Memory (AtomicFromDescriptorMixin.put):
open for write, write every chunk of the iterator, close.  The size hint is
ignored (Memory.open takes no size hint parameter). -/
def Memory.put (s : MemoryState) (path : Key) (data : List Bytes) : MRes MemoryState Unit :=
  mbind (Memory.open' s path .wb) (fun fd s =>
    mbind (Memory.putLoop data s fd) (fun _ s => Memory.close s (.inl fd)))

/-- The copy loop of the UFS.copy fallback of spec.py: read a chunk from the
source descriptor, stop on empty, else write it to the destination. -/
def UFS.copyLoop : Nat → MemoryState → Nat → Nat → MRes MemoryState Unit
  | 0, s, _, _ => .error (.outOfFuel, s)
  | fuel + 1, s, srcFd, dstFd =>
    mbind (Memory.read s srcFd CHUNK_SIZE) (fun buf s =>
      if buf = [] then .ok ((), s)
      else mbind (Memory.write s dstFd buf) (fun _ s =>
        UFS.copyLoop fuel s srcFd dstFd))

/-- The fallback UFS.copy of spec.py (lines 183 to 194), instantiated at the
Memory descriptor operations: check the source is a file, open the source
for read and the destination for write, stream the chunks, then call
self.close(dst) and self.close(src) with the PATHS, exactly as the source
does (the opened descriptors src underscore fd and dst underscore fd are
never passed to close). -/
def UFS.copyDefault (fuel : Nat) (s : MemoryState) (src dst : Key) : MRes MemoryState Unit :=
  mbind (Memory.info s src) (fun srcInfo s =>
    if srcInfo.ftype ≠ .file then .error (.isADirectory (keyStr src), s)
    else
      mbind (Memory.open' s src .rb) (fun srcFd s =>
        mbind (Memory.open' s dst .wb) (fun dstFd s =>
          mbind (UFS.copyLoop fuel s srcFd dstFd) (fun _ s =>
            mbind (Memory.close s (.inr dst)) (fun _ s =>
              Memory.close s (.inr src))))))

/-- UPath.write_bytes of access/pathlib.py over a Memory store: open the
path in mode wb, write the bytes, close the returned descriptor. -/
def UPath.write_bytes (s : MemoryState) (p : Key) (text : Bytes) : MRes MemoryState Nat :=
  mbind (Memory.open' s p .wb) (fun fd s =>
    mbind (Memory.write s fd text) (fun ret s =>
      mbind (Memory.close s (.inl fd)) (fun _ s => .ok (ret, s))))

/-- UPath.read_bytes of access/pathlib.py over a Memory store: open the path
in mode rb, read to the end, close. -/
def UPath.read_bytes (s : MemoryState) (p : Key) : MRes MemoryState Bytes :=
  mbind (Memory.open' s p .rb) (fun fd s =>
    mbind (Memory.read s fd (-1)) (fun data s =>
      mbind (Memory.close s (.inl fd)) (fun _ s => .ok (data, s))))

/-- errno.EPERM on Linux. -/
def EPERM : Nat := 1
/-- errno.ENOENT on Linux. -/
def ENOENT : Nat := 2
/-- errno.EEXIST on Linux. -/
def EEXIST : Nat := 17
/-- errno.ENOTDIR on Linux. -/
def ENOTDIR : Nat := 20
/-- errno.EISDIR on Linux. -/
def EISDIR : Nat := 21
/-- errno.EROFS on Linux. -/
def EROFS : Nat := 30
/-- errno.ENOTEMPTY on Linux. -/
def ENOTEMPTY : Nat := 39
/-- errno.ENOTSUP on Linux. -/
def ENOTSUP : Nat := 95

/-- The oserror context manager of access/os.py (lines 21 to 32): the errno
of the OSError that reaches the caller for each exception the wrapped call
raises.  FileNotFoundError, FileExistsError, NotADirectoryError,
IsADirectoryError and PermissionError are re-raised with their errno; an
OSError passes through unchanged; NotImplementedError becomes ENOTSUP; any
other exception (RuntimeError and KeyError included) becomes EROFS. -/
def oserror : Err → Nat
  | .fileNotFound _ => ENOENT
  | .fileExists => EEXIST
  | .notADirectory _ => ENOTDIR
  | .isADirectory _ => EISDIR
  | .permissionError => EPERM
  | .osError n => n
  | .notImplemented => ENOTSUP
  | .runtimeError _ => EROFS
  | .keyError => EROFS
  | .outOfFuel => EROFS

/-- UOS.rmdir of access/os.py: the store rmdir wrapped in oserror; an error
surfaces as an OSError carrying the translated errno. -/
def UOS.rmdir (s : MemoryState) (p : Key) : Except (Nat × MemoryState) (Unit × MemoryState) :=
  match Memory.rmdir s p with
  | .ok r => .ok r
  | .error (e, s') => .error (oserror e, s')

/-- The state of an Overlay store over two Memory stores (the descriptor
table is not needed by the operations embedded here). -/
structure OverlayState where
  lower : MemoryState
  upper : MemoryState
  deriving DecidableEq, Repr

/-- Overlay.info of impl/overlay.py: try the upper store, fall back to the
lower store only on FileNotFoundError. -/
def Overlay.info (o : OverlayState) (p : Key) : MRes OverlayState FileStat :=
  match Memory.info o.upper p with
  | .ok (st, u') => .ok (st, { o with upper := u' })
  | .error (e, u') =>
    match e with
    | .fileNotFound _ =>
      (match Memory.info o.lower p with
       | .ok (st, l') => .ok (st, { lower := l', upper := u' })
       | .error (e2, l') => .error (e2, { lower := l', upper := u' }))
    | _ => .error (e, { o with upper := u' })

/-- Overlay.rename of impl/overlay.py (lines 119 to 124): try the rename on
the upper store; on FileNotFoundError, consult the lower store and raise
PermissionError when the source is a file there (when it is a directory the
method falls through and returns None, renaming nothing). -/
def Overlay.rename (o : OverlayState) (src dst : Key) : MRes OverlayState Unit :=
  match Memory.rename o.upper src dst with
  | .ok (_, u') => .ok ((), { o with upper := u' })
  | .error (e, u') =>
    match e with
    | .fileNotFound _ =>
      (match Memory.info o.lower src with
       | .ok (st, l') =>
         if st.ftype = .file then .error (.permissionError, { lower := l', upper := u' })
         else .ok ((), { lower := l', upper := u' })
       | .error (e2, l') => .error (e2, { lower := l', upper := u' }))
    | _ => .error (e, { o with upper := u' })

/-- The state of an RWCache store (impl/rwcache.py) whose backing store
(self dot underscore ufs) and scratch store (self dot underscore cache) are
both Memory stores, as in the usage example of its module docstring. -/
structure RWCacheState where
  inner : MemoryState
  cache : MemoryState
  cfd : Nat
  fds : List (Nat × (Nat × Key))
  deriving DecidableEq, Repr

/-- The scratch path RWCache uses for a descriptor: SafePurePosixPath of
the string slash followed by the descriptor number. -/
def scratchKey (fd : Nat) : Key := [toString fd]

/-- RWCache.open of impl/rwcache.py (lines 57 to 63): allocate a descriptor
number; when the mode has no w, preload the scratch store by putting the
full cat of the backing file under the scratch path (the size hint is the
backing info size); finally open the scratch path and remember the pair
(scratch handle, path).  Note the entry stores no mode. -/
def RWCache.open' (fuel : Nat) (st : RWCacheState) (path : Key) (mode : Mode) :
    Except (Err × RWCacheState) (Nat × RWCacheState) :=
  let fd := st.cfd
  let preload : Except (Err × RWCacheState) RWCacheState :=
    if mode.hasW then .ok st
    else
      match Memory.info st.inner path with
      | .error (e, i') => .error (e, { st with inner := i' })
      | .ok (_, i') =>
        match Memory.cat fuel i' path with
        | .error (e, i'') => .error (e, { st with inner := i'' })
        | .ok (chunks, i'') =>
          match Memory.put { st with inner := i'' }.cache (scratchKey fd) chunks with
          | .error (e, c') => .error (e, { st with inner := i'', cache := c' })
          | .ok (_, c') => .ok { st with inner := i'', cache := c' }
  match preload with
  | .error e => .error e
  | .ok st1 =>
    match Memory.open' st1.cache (scratchKey fd) mode with
    | .error (e, c') => .error (e, { st1 with cache := c' })
    | .ok (fh, c') =>
      .ok (fd,
        { st1 with
          cache := c'
          cfd := fd + 1
          fds := aset st1.fds fd (fh, path) })

/-- RWCache.read of impl/rwcache.py: forward to the scratch handle. -/
def RWCache.read (st : RWCacheState) (fd : Nat) (amnt : Int) :
    Except (Err × RWCacheState) (Bytes × RWCacheState) :=
  match alookup st.fds fd with
  | none => .error (.keyError, st)
  | some (fh, _) =>
    match Memory.read st.cache fh amnt with
    | .error (e, c') => .error (e, { st with cache := c' })
    | .ok (data, c') => .ok (data, { st with cache := c' })

/-- RWCache.close of impl/rwcache.py (lines 77 to 82): pop the entry, stat
the scratch copy, close the scratch handle, put the scratch copy back to
the backing store, and unlink the scratch copy.  The put-back happens on
every close: the entry records no mode, so nothing distinguishes a handle
opened read-only. -/
def RWCache.close (fuel : Nat) (st : RWCacheState) (fd : Nat) :
    Except (Err × RWCacheState) (Unit × RWCacheState) :=
  match alookup st.fds fd with
  | none => .error (.keyError, st)
  | some (fh, path) =>
    let st1 := { st with fds := aerase st.fds fd }
    match Memory.info st1.cache (scratchKey fd) with
    | .error (e, c') => .error (e, { st1 with cache := c' })
    | .ok (_, c') =>
      match Memory.close c' (.inl fh) with
      | .error (e, c'') => .error (e, { st1 with cache := c'' })
      | .ok (_, c'') =>
        match Memory.cat fuel c'' (scratchKey fd) with
        | .error (e, c3) => .error (e, { st1 with cache := c3 })
        | .ok (chunks, c3) =>
          match Memory.put st1.inner path chunks with
          | .error (e, i') => .error (e, { st1 with inner := i', cache := c3 })
          | .ok (_, i') =>
            match Memory.unlink c3 (scratchKey fd) with
            | .error (e, c4) => .error (e, { st1 with inner := i', cache := c4 })
            | .ok (_, c4) => .ok ((), { st1 with inner := i', cache := c4 })

/-- Python substring containment (the in operator on str). -/
def pySubstr (a b : String) : Bool :=
  (List.range (b.length + 1)).any (fun i => (b.toList.drop i).take a.length = a.toList)

/-- The descendant relation of the claim wording for movefile and move.
Modelled from the spec: the destination lies under the source when the
source components are a prefix of the destination components. -/
def spec_isUnder (dst src : Key) : Bool := src.isPrefixOf dst

/-- movefile of access/shutil.py (same-store branch, lines 97 to 104) on a
Memory store: refuse when str(src) occurs inside str(dst) (the Python in
operator), else rename. -/
def movefile (s : MemoryState) (src dst : Key) : MRes MemoryState Unit :=
  if pySubstr (keyStr src) (keyStr dst) then
    .error (.runtimeError .cantMoveIntoItself, s)
  else Memory.rename s src dst

/-- A prefix tree of utils/prefix_tree.py: the dict maps the key None to a
fallback path (possibly None itself) and name components to subtrees. -/
inductive PTree where
  | node (fallback : Option Key) (children : List (String × PTree))

/-- Child lookup in a prefix-tree node (part in tree, tree of part). -/
def PTree.child : PTree → String → Option PTree
  | .node _ ch, p => alookup ch p

/-- len(tree) == 1 for the dict representation: no named children. -/
def PTree.isLeaf : PTree → Bool
  | .node _ ch => ch.isEmpty

/-- The fallback entry (tree of None). -/
def PTree.fb : PTree → Option Key
  | .node f _ => f

/-- Replace or add a child in a node. -/
def PTree.setChild : PTree → String → PTree → PTree
  | .node f ch, p, t => .node f (aset ch p t)

/-- parts of a SafePurePosixPath: the anchor (rendered here as slash) then
the components. -/
def pathParts (k : Key) : List String := "/" :: k

/-- One path insertion of create_prefix_tree_from_paths of
utils/prefix_tree.py: walk the front components, creating missing nodes
that inherit the fallback of their parent, then ASSIGN the last component
to a fresh leaf node carrying the full path — replacing any subtree already
hanging there, exactly as tmp[last_path] = brace None colon path brace
does. -/
def insertPath : PTree → List String → Key → PTree
  | t, [], _ => t
  | t, [last], full => t.setChild last (.node (some full) [])
  | .node f ch, p :: rest, full =>
    let sub := match alookup ch p with
      | some sub => sub
      | none => .node f []
    .node f (aset ch p (insertPath sub rest full))

/-- create_prefix_tree_from_paths of utils/prefix_tree.py: fold the paths,
in order, into the tree rooted at brace None colon None brace. -/
def create_prefix_tree_from_paths (paths : List Key) : PTree :=
  paths.foldl (fun t p => insertPath t (pathParts p) p) (.node none [])

/-- The loop of search_prefix_tree of utils/prefix_tree.py: descend while
the next part is a child; on descending into a leaf return its fallback
with the REMAINING parts joined below the root; when a part misses or the
parts run out, return the current fallback with the FULL original path. -/
def searchGo : PTree → List String → Key → Option Key × Key
  | t, [], orig => (t.fb, orig)
  | t, part :: rest, orig =>
    match t.child part with
    | none => (t.fb, orig)
    | some t' => if t'.isLeaf then (t'.fb, rest) else searchGo t' rest orig

/-- search_prefix_tree of utils/prefix_tree.py. -/
def search_prefix_tree (t : PTree) (p : Key) : Option Key × Key :=
  searchGo t (pathParts p) p

/-- Mapper underscore matchpath of impl/mapper.py: search the prefix tree
built from the route prefixes, then look the matched prefix up in the path
map (a missing prefix or a None fallback raises FileNotFoundError); the
store is returned with the subpath produced by the search. -/
def Mapper.matchpath (routes : List (Key × Nat)) (p : Key) : Except Err (Nat × Key) :=
  let tree := create_prefix_tree_from_paths (routes.map Prod.fst)
  let (prefix?, subpath) := search_prefix_tree tree p
  match prefix? with
  | none => .error (.fileNotFound (keyStr p))
  | some pre =>
    match alookup routes pre with
    | none => .error (.fileNotFound (keyStr p))
    | some ufs => .ok (ufs, subpath)

/-- A pathlib.PurePosixPath value: whether it is anchored at the root, and
its name components (pathlib itself already drops empty and dot segments
when parsing; the anchor renders as one of the slash tokens, which the
SafePurePosixPath division skips, so a single slash token stands for it). -/
structure PyPath where
  abs : Bool
  comps : List String
  deriving DecidableEq, Repr

/-- PurePosixPath.parent: drop the last component; the parent of a root or
of an empty relative path is itself. -/
def PyPath.parent (p : PyPath) : PyPath := { p with comps := p.comps.dropLast }

/-- PurePosixPath division by a single plain name. -/
def PyPath.child (p : PyPath) (name : String) : PyPath :=
  { p with comps := p.comps ++ [name] }

/-- Split a character list at every slash (the segments between the
separators, as str.split produces them). -/
def splitSlash : List Char → List (List Char)
  | [] => [[]]
  | x :: xs =>
    let rest := splitSlash xs
    if x = '/' then [] :: rest
    else
      match rest with
      | r :: rs => (x :: r) :: rs
      | [] => [[x]]

/-- PurePosixPath parsing of a raw string: split on slashes and drop empty
and dot segments. -/
def pyParts (s : String) : List String :=
  ((splitSlash s.data).map (fun cs => String.mk cs)).filter (fun x => x ≠ "" ∧ x ≠ ".")

/-- Whether the raw string is anchored (starts with a slash). -/
def startsWithSlash (s : String) : Bool :=
  match s.data with
  | c :: _ => c = '/'
  | [] => false

/-- PurePosixPath of a raw string. -/
def pyPosixPath (s : String) : PyPath :=
  { abs := startsWithSlash s, comps := pyParts s }

/-- The parts tuple of a PurePosixPath: the anchor token when absolute,
then the components. -/
def PyPath.partsList (p : PyPath) : List String :=
  (if p.abs then ["/"] else []) ++ p.comps

/-- One step of SafePurePosixPath underscore truediv of utils/pathlib.py
(lines 25 to 32): a dotdot part moves to the parent, the slash tokens, the
dot and the empty part are skipped, anything else descends. -/
def safeDivPart (p : PyPath) (part : String) : PyPath :=
  if part = ".." then p.parent
  else if part = "//" ∨ part = "/" ∨ part = "." ∨ part = "" then p
  else p.child part

/-- SafePurePosixPath underscore truediv of utils/pathlib.py: fold the
parts of the parsed subpath over the current path. -/
def safeDiv (p : PyPath) (sub : String) : PyPath :=
  (pyPosixPath sub).partsList.foldl safeDivPart p

/-- The root path SafePurePosixPath underscore wraps by default. -/
def rootPath : PyPath := { abs := true, comps := [] }

/-- SafePurePosixPath of utils/pathlib.py (lines 47 to 57): divide the
root by the raw string (the empty string yields the bare root). -/
def SafePurePosixPath (s : String) : PyPath := safeDiv rootPath s

/-- The queue contents of a QueuedIterator of spec.py: every put item in
order; write enqueues the bytes, close enqueues the None sentinel. -/
abbrev QueueItems := List (Option Bytes)

/-- QueuedIterator.write of spec.py (lines 59 to 62): enqueue the data and
return its length. -/
def QueuedIterator.write (q : QueueItems) (data : Bytes) : Nat × QueueItems :=
  (data.length, q ++ [some data])

/-- QueuedIterator iteration of spec.py (lines 65 to 70): take items off
the queue and yield them, stopping at the first falsy item — the None
sentinel OR an empty byte string both fail the if-not-item test. -/
def queuedIteratorChunks : QueueItems → List Bytes
  | [] => []
  | none :: _ => []
  | some d :: rest => if d = [] then [] else d :: queuedIteratorChunks rest

/-- The write-side state of a descriptor opened by
DescriptorFromAtomicMixin.open of spec.py in mode w: the queue feeding the
put thread. -/
structure WriteHandle where
  queue : QueueItems
  deriving Repr

/-- DescriptorFromAtomicMixin.write of spec.py (lines 105 to 108): the
descriptor must be a write descriptor; enqueue and return the length. -/
def DFA.write (h : WriteHandle) (data : Bytes) : Nat × WriteHandle :=
  let (n, q) := QueuedIterator.write h.queue data
  (n, { queue := q })

/-- DescriptorFromAtomicMixin.close of spec.py (lines 119 to 123) composed
with the put thread it joins: close enqueues the sentinel; the put loop of
AtomicFromDescriptorMixin.put has consumed the iterated chunks and the
backend file holds their concatenation. -/
def DFA.close (h : WriteHandle) : Except Err Bytes :=
  .ok (queuedIteratorChunks (h.queue ++ [none])).flatten

/-- Run a list of writes against a fresh write descriptor. -/
def DFA.runWrites (datas : List Bytes) : WriteHandle :=
  datas.foldl (fun h d => (DFA.write h d).2) { queue := [] }

/-- A Memory store holding the single three-byte file s (the state
UPath.write_bytes produces on a fresh store). -/
def c9Base : MemoryState :=
  { heap := [{ info := { ftype := .directory, size := 0 }, content := [] },
             { info := { ftype := .file, size := 3 }, content := [1, 2, 3] }]
    inodes := [([], 0), (["s"], 1)]
    dirs := [([], ["s"])]
    cfd := 6
    fds := [] }

/-- The store after Memory.copy of the file s to d: both paths point to
heap cell 1 — the very same inode object. -/
def c9Aliased : MemoryState :=
  { heap := [{ info := { ftype := .directory, size := 0 }, content := [] },
             { info := { ftype := .file, size := 3 }, content := [1, 2, 3] }]
    inodes := [([], 0), (["s"], 1), (["d"], 1)]
    dirs := [([], ["s", "d"])]
    cfd := 6
    fds := [] }

/-- C1: the roundtrip property P1 evaluated on the Memory store at a path
with prior longer content.  After the file a holds the three bytes X Y Z,
UPath.write_bytes of the two bytes a b followed by UPath.read_bytes
returns those two bytes followed by the leftover Z, and info reports size
3: Memory.open in mode wb seeds the stream with the existing content and
does not truncate, so the claim that read_bytes returns exactly the
written content and that the size equals its length, regardless of prior
content, fails. -/
theorem C1_write_bytes_roundtrip_fails :
    ∃ s1 s2,
      UPath.write_bytes Memory.init ["a"] [88, 89, 90] = .ok (3, s1) ∧
      UPath.write_bytes s1 ["a"] [97, 98] = .ok (2, s2) ∧
      (UPath.read_bytes s2 ["a"]).map Prod.fst = .ok [97, 98, 90] ∧
      [97, 98, 90] ≠ [97, 98] ∧
      (Memory.info s2 ["a"]).map (fun r => r.fst.size) = .ok 3 ∧
      (3 : Nat) ≠ [97, 98].length := by
  exact ⟨_, _, rfl, rfl, rfl, by decide, rfl, by decide⟩

/-- C2: the default UFS.copy of spec.py run on a Memory-backed store whose
file src holds five bytes.  The loop streams the content, but the two
final close calls pass the paths dst and src instead of the descriptors it
opened, so the call raises KeyError, both descriptors remain in the handle
table (it grew from empty to two entries), and the destination inode never
receives the streamed bytes — reading dst afterwards yields the empty
byte string. -/
theorem C2_default_copy_closes_paths_not_fds :
    ∃ sPre sErr,
      UPath.write_bytes Memory.init ["src"] [104, 101, 108, 108, 111] = .ok (5, sPre) ∧
      sPre.fds = [] ∧
      UFS.copyDefault 8 sPre ["src"] ["dst"] = .error (.keyError, sErr) ∧
      sErr.fds.length = 2 ∧
      (UPath.read_bytes sErr ["dst"]).map Prod.fst = .ok [] ∧
      ([] : Bytes) ≠ [104, 101, 108, 108, 111] := by
  exact ⟨_, _, rfl, rfl, rfl, rfl, rfl, by decide⟩

/-- C3: Overlay.rename where the source exists only in the lower store.
With lower holding file f and upper empty, rename of f to g raises
PermissionError instead of falling back to copy-up-then-rename, and g does
not exist on the overlay afterwards (its info raises FileNotFoundError),
so the claim that the rename succeeds and dst becomes readable fails. -/
theorem C3_overlay_rename_lower_only_raises :
    ∃ l o',
      UPath.write_bytes Memory.init ["f"] [100, 97] = .ok (2, l) ∧
      Overlay.rename { lower := l, upper := Memory.init } ["f"] ["g"] =
        .error (.permissionError, o') ∧
      Overlay.info o' ["g"] = .error (.fileNotFound "/g", o') := by
  exact ⟨_, _, rfl, rfl, rfl⟩

/-- C4: the oserror translation evaluated class by class, and rmdir of a
non-empty directory driven through the OS adapter.  Memory.rmdir raises a
RuntimeError, which the catch-all of oserror converts to errno EROFS = 30,
not ENOTEMPTY = 39 as the claim states. -/
theorem C4_rmdir_nonempty_maps_to_EROFS :
    ∃ st sErr,
      mbind (Memory.mkdir Memory.init ["d"]) (fun _ s => UPath.write_bytes s ["d", "x"] [97]) =
        .ok (1, st) ∧
      UOS.rmdir st ["d"] = .error (EROFS, sErr) ∧
      EROFS ≠ ENOTEMPTY ∧
      oserror (.fileNotFound "/p") = ENOENT ∧
      oserror .fileExists = EEXIST ∧
      oserror (.notADirectory "/p") = ENOTDIR ∧
      oserror (.isADirectory "/p") = EISDIR ∧
      oserror .permissionError = EPERM ∧
      oserror .notImplemented = ENOTSUP ∧
      oserror (.osError ENOTEMPTY) = ENOTEMPTY ∧
      oserror (.runtimeError .directoryNotEmpty) = EROFS := by
  exact ⟨_, _, rfl, rfl, by decide, rfl, rfl, rfl, rfl, rfl, rfl, rfl, rfl⟩

/-- C5: RWCache close of a handle opened read-only.  With the backing
store holding file f, open in mode rb succeeds and close succeeds — but
close puts the scratch copy back to the backing store unconditionally (the
descriptor entry records no mode): the backing store is not left
unchanged, its descriptor counter advancing once during open (the cat that
fills the scratch) and once more during close (the put back), so a put to
the backing store is performed although the handle was never writable. -/
theorem C5_rwcache_readonly_close_puts_back :
    ∃ inner0 st1 st2 fd,
      UPath.write_bytes Memory.init ["f"] [104, 105] = .ok (2, inner0) ∧
      RWCache.open' 9 { inner := inner0, cache := Memory.init, cfd := 5, fds := [] } ["f"] .rb =
        .ok (fd, st1) ∧
      RWCache.close 9 st1 fd = .ok ((), st2) ∧
      inner0.cfd = 6 ∧ st1.inner.cfd = 7 ∧ st2.inner.cfd = 8 ∧
      (UPath.read_bytes st2.inner ["f"]).map Prod.fst = .ok [104, 105] := by
  exact ⟨_, _, _, _, rfl, rfl, rfl, rfl, rfl, rfl, rfl⟩

/-- C6 counterexample: on a single store, movefile from the path a to the
path ab raises the self-nesting RuntimeError although ab is not a
descendant of a, refuting the claim that an error is raised only when the
destination lies under the source (the Python check is substring
containment of the rendered strings). -/
theorem C6_counterexample_sibling_refused :
    ∃ s0,
      UPath.write_bytes Memory.init ["a"] [120] = .ok (1, s0) ∧
      movefile s0 ["a"] ["ab"] = .error (.runtimeError .cantMoveIntoItself, s0) ∧
      spec_isUnder ["ab"] ["a"] = false := by
  exact ⟨_, rfl, rfl, by decide⟩

/-- C7: the Mapper with routes for the paths a slash b slash c and a,
inserted in that order, dispatches the request for the exact route path
a slash b slash c to the store of the SHORTER route a with subpath b
slash c: inserting the shorter route replaced the child node that held the
longer route (create_prefix_tree_from_paths assigns a fresh leaf over the
existing subtree), so the longest matching route prefix is not the one
dispatched to, contradicting the claim and the docstrings of the prefix
tree helpers themselves. -/
theorem C7_mapper_longest_prefix_fails :
    Mapper.matchpath [(["a", "b", "c"], 1), (["a"], 0)] ["a", "b", "c"] = .ok (0, ["b", "c"]) ∧
    (0 : Nat) ≠ 1 := by
  exact ⟨rfl, by decide⟩

/-- The queue iteration yields every leading nonempty chunk and then keeps
consuming the remainder of the queue. -/
theorem queuedIteratorChunks_append (pre : List Bytes) (rest : QueueItems)
    (h : ∀ d ∈ pre, d ≠ []) :
    queuedIteratorChunks (pre.map some ++ rest) = pre ++ queuedIteratorChunks rest := by
  induction pre with
  | nil => simp
  | cons d pre ih =>
    have hd : d ≠ [] := h d (by simp)
    simp only [List.map_cons, List.cons_append, queuedIteratorChunks, if_neg hd, List.append_eq]
    rw [ih (fun x hx => h x (by simp [hx]))]

/-- The queue of a fresh write descriptor after a list of writes holds
exactly those writes in order. -/
theorem DFA.runWrites_queue (datas : List Bytes) :
    (DFA.runWrites datas).queue = datas.map some := by
  suffices hgen : ∀ (h : WriteHandle) (ds : List Bytes),
      (ds.foldl (fun h d => (DFA.write h d).2) h).queue = h.queue ++ ds.map some by
    simpa [DFA.runWrites] using hgen { queue := [] } datas
  intro h ds
  induction ds generalizing h with
  | nil => simp
  | cons d ds ih =>
    rw [List.foldl_cons, ih]
    simp [DFA.write, QueuedIterator.write]

/-- C10: in the descriptor-from-atomic bridge, an empty write terminates
the underlying put stream early.  For a write handle that received some
nonempty chunks, then an empty chunk, then any further chunks: close
succeeds and the backend file is finalized with exactly the concatenation
of the chunks before the empty write (the put loop stops at the first
falsy queue item, which an empty byte string is); every write, the
discarded ones included, still returns the byte count of its data. -/
theorem C10_empty_write_terminates_put (pre post : List Bytes)
    (h : ∀ d ∈ pre, d ≠ []) :
    DFA.close (DFA.runWrites (pre ++ [] :: post)) = .ok pre.flatten ∧
    (DFA.runWrites (pre ++ [] :: post)).queue = (pre ++ [] :: post).map some ∧
    (∀ (hnd : WriteHandle) (d : Bytes), (DFA.write hnd d).fst = d.length) := by
  refine ⟨?_, DFA.runWrites_queue _, fun hnd d => rfl⟩
  simp only [DFA.close, DFA.runWrites_queue, List.map_append, List.map_cons, List.append_assoc,
    List.cons_append]
  rw [queuedIteratorChunks_append pre _ h]
  simp [queuedIteratorChunks]

/-- C10 witness: the bridge theorem applied to two nonempty chunks, an
empty write, and one more chunk. -/
theorem C10_empty_write_terminates_put_witness :
    DFA.close (DFA.runWrites ([[1, 2], [3]] ++ [] :: [[9]])) = .ok ([[1, 2], [3]] : List Bytes).flatten ∧
    (DFA.runWrites ([[1, 2], [3]] ++ [] :: [[9]])).queue = (([[1, 2], [3]] ++ [] :: [[9]]) : List Bytes).map some ∧
    (∀ (hnd : WriteHandle) (d : Bytes), (DFA.write hnd d).fst = d.length) :=
  C10_empty_write_terminates_put [[1, 2], [3]] [[9]] (by decide)

/-- Memory.copy raises only FileNotFoundError, IsADirectoryError or
FileExistsError, never a RuntimeError. -/
theorem Memory.copy_err_not_runtime (s : MemoryState) (src dst : Key) (m : PyMsg)
    (s' : MemoryState) : Memory.copy s src dst ≠ .error (.runtimeError m, s') := by
  unfold Memory.copy
  intro h
  repeat' split at h
  all_goals simp_all

/-- Memory.unlink raises only FileNotFoundError, IsADirectoryError or
KeyError, never a RuntimeError. -/
theorem Memory.unlink_err_not_runtime (s : MemoryState) (p : Key) (m : PyMsg)
    (s' : MemoryState) : Memory.unlink s p ≠ .error (.runtimeError m, s') := by
  unfold Memory.unlink
  intro h
  repeat' split at h
  all_goals simp_all

/-- The rename a Memory store inherits from UFS (copy then unlink) never
raises a RuntimeError. -/
theorem Memory.rename_err_not_runtime (s : MemoryState) (src dst : Key) (m : PyMsg)
    (s' : MemoryState) : Memory.rename s src dst ≠ .error (.runtimeError m, s') := by
  unfold Memory.rename mbind
  intro h
  split at h
  · exact Memory.copy_err_not_runtime s src dst m s' (by simp_all)
  · exact Memory.unlink_err_not_runtime _ src m s' h

/-- C6 amended: movefile on a single store refuses the move with the
self-nesting RuntimeError exactly when str(src) occurs as a substring of
str(dst) — a strict over-approximation of the descendant relation;
otherwise it proceeds to rename (copy then unlink), none of whose own
failures is that RuntimeError. -/
theorem C6_movefile_refuses_iff_substring (s : MemoryState) (src dst : Key) :
    (∃ s', movefile s src dst = .error (.runtimeError .cantMoveIntoItself, s')) ↔
      pySubstr (keyStr src) (keyStr dst) = true := by
  constructor
  · rintro ⟨s', h⟩
    by_contra hfalse
    have hb : pySubstr (keyStr src) (keyStr dst) = false := by
      cases hx : pySubstr (keyStr src) (keyStr dst)
      · rfl
      · exact absurd hx hfalse
    rw [movefile, if_neg (by simp [hb])] at h
    exact Memory.rename_err_not_runtime s src dst .cantMoveIntoItself s' h
  · intro h
    exact ⟨s, by rw [movefile, if_pos (by simp [h])]⟩

/-- One division step never changes whether a path is absolute. -/
theorem safeDivPart_abs (p : PyPath) (part : String) :
    (safeDivPart p part).abs = p.abs := by
  unfold safeDivPart PyPath.parent PyPath.child
  split <;> [rfl; skip]
  split <;> rfl

/-- Folding division steps never changes whether a path is absolute. -/
theorem foldl_safeDivPart_abs (parts : List String) (p : PyPath) :
    (parts.foldl safeDivPart p).abs = p.abs := by
  induction parts generalizing p with
  | nil => rfl
  | cons q parts ih => rw [List.foldl_cons, ih, safeDivPart_abs]

/-- A division step preserves the absence of empty, dot and dotdot
components: a dotdot part drops the last component, skipped parts change
nothing, and a descending part is none of the three. -/
theorem safeDivPart_good (p : PyPath) (part : String)
    (hp : ∀ x ∈ p.comps, x ≠ "" ∧ x ≠ "." ∧ x ≠ "..") :
    ∀ x ∈ (safeDivPart p part).comps, x ≠ "" ∧ x ≠ "." ∧ x ≠ ".." := by
  unfold safeDivPart PyPath.parent PyPath.child
  split_ifs with h1 h2
  · exact fun x hx => hp x (List.dropLast_subset _ hx)
  · exact hp
  · intro x hx
    rcases List.mem_append.1 hx with hx | hx
    · exact hp x hx
    · push_neg at h2
      obtain ⟨g1, g2, g3, g4⟩ := h2
      simp only [List.mem_singleton] at hx
      subst hx
      exact ⟨g4, g3, h1⟩

/-- Folding division steps preserves the absence of empty, dot and dotdot
components. -/
theorem foldl_safeDivPart_good (parts : List String) (p : PyPath)
    (hp : ∀ x ∈ p.comps, x ≠ "" ∧ x ≠ "." ∧ x ≠ "..") :
    ∀ x ∈ (parts.foldl safeDivPart p).comps, x ≠ "" ∧ x ≠ "." ∧ x ≠ ".." := by
  induction parts generalizing p with
  | nil => exact hp
  | cons q parts ih => exact ih _ (safeDivPart_good p q hp)

/-- C8: path construction from a raw string is total and purely syntactic.
Every constructed path is absolute; the parent of the root is the root;
one division step skips dot and empty (and anchor) segments and resolves
dotdot to the parent; no constructed path retains an empty, dot or dotdot
component; and two constructed paths are equal exactly when their
component sequences are equal. -/
theorem C8_safe_path_normalization :
    (∀ s, (SafePurePosixPath s).abs = true) ∧
    rootPath.parent = rootPath ∧
    (∀ p : PyPath, safeDivPart p "." = p ∧ safeDivPart p "" = p ∧
      safeDivPart p "/" = p ∧ safeDivPart p ".." = p.parent) ∧
    (∀ s, ∀ x ∈ (SafePurePosixPath s).comps, x ≠ "" ∧ x ≠ "." ∧ x ≠ "..") ∧
    (∀ s t, SafePurePosixPath s = SafePurePosixPath t ↔
      (SafePurePosixPath s).comps = (SafePurePosixPath t).comps) := by
  refine ⟨fun s => foldl_safeDivPart_abs _ _, rfl, fun p => ⟨rfl, rfl, rfl, rfl⟩,
    fun s => foldl_safeDivPart_good _ _ (by intro x hx; simp [rootPath] at hx),
    fun s t => ⟨fun h => by rw [h], fun h => ?_⟩⟩
  have hs := foldl_safeDivPart_abs (pyPosixPath s).partsList rootPath
  have ht := foldl_safeDivPart_abs (pyPosixPath t).partsList rootPath
  cases hps : SafePurePosixPath s with
  | mk a₁ c₁ =>
    cases hpt : SafePurePosixPath t with
    | mk a₂ c₂ =>
      have ha₁ : a₁ = true := by
        have := hs
        rw [show (pyPosixPath s).partsList.foldl safeDivPart rootPath = SafePurePosixPath s from rfl,
          hps] at this
        simpa using this
      have ha₂ : a₂ = true := by
        have := ht
        rw [show (pyPosixPath t).partsList.foldl safeDivPart rootPath = SafePurePosixPath t from rfl,
          hpt] at this
        simpa using this
      have hc : c₁ = c₂ := by
        have := h
        rw [hps, hpt] at this
        simpa using this
      rw [ha₁, ha₂, hc]

/-- C8 witness: the normalization theorem applied at concrete raw strings,
discharging the membership hypothesis of the component-goodness conjunct. -/
theorem C8_safe_path_normalization_witness :
    ("a" ≠ "" ∧ "a" ≠ "." ∧ "a" ≠ "..") ∧
    (SafePurePosixPath "/a/.././/a/b" = SafePurePosixPath "/a/b" ↔
      (SafePurePosixPath "/a/.././/a/b").comps = (SafePurePosixPath "/a/b").comps) :=
  ⟨C8_safe_path_normalization.2.2.2.1 "/a/b" "a" (by decide),
    C8_safe_path_normalization.2.2.2.2 "/a/.././/a/b" "/a/b"⟩

/-- Looking up the key just set returns the set value. -/
theorem alookup_aset_self {κ α : Type} [DecidableEq κ] (l : List (κ × α)) (k : κ) (v : α) :
    alookup (aset l k v) k = some v := by
  induction l with
  | nil => simp [aset, alookup]
  | cons kv rest ih =>
    obtain ⟨k0, v0⟩ := kv
    by_cases h : k0 = k
    · subst h; simp [aset, alookup]
    · simp [aset, alookup, h, ih]

/-- Setting a heap cell keeps the heap length. -/
theorem length_heapSet (h : List MemoryInode) (r : Nat) (v : MemoryInode) :
    (heapSet h r v).length = h.length := by
  simp [heapSet]

/-- Reading the heap cell just set returns the set inode. -/
theorem heapGet_heapSet_self (h : List MemoryInode) (r : Nat) (v : MemoryInode)
    (hr : r < h.length) : heapGet (heapSet h r v) r = v := by
  simp [heapGet, heapSet, List.getD_eq_getElem?_getD, List.getElem?_set_eq_of_lt _ hr]

/-- A BytesIO write at position zero overwrites the front of the buffer
and keeps the tail beyond the written length. -/
theorem bytesWrite_zero (buf data : Bytes) :
    bytesWrite buf 0 data = data ++ buf.drop data.length := by
  simp [bytesWrite]

/-- C9: Memory.copy aliases the destination to the same inode object as
the source.  For any state in which src and dst are mapped to the same
heap cell holding a file (exactly the state Memory.copy produces), opening
src in mode wb, writing c and closing makes a subsequent read of DST
return the new content of src — the written bytes followed by the old tail
— and not the old content dst held when the pair was created; reads of
dst and src agree. -/
theorem C9_memory_copy_aliases
    (s : MemoryState) (src dst ppS ppD : Key) (dirS dirD : List String) (r : Nat) (c : Bytes)
    (h1 : alookup s.inodes src = some r)
    (h2 : alookup s.inodes dst = some r)
    (hr : r < s.heap.length)
    (hty : (heapGet s.heap r).info.ftype = .file)
    (h3 : parentKey src = some ppS) (h4 : alookup s.dirs ppS = some dirS)
    (h5 : parentKey dst = some ppD) (h6 : alookup s.dirs ppD = some dirD)
    (hne : c ++ (heapGet s.heap r).content.drop c.length ≠ (heapGet s.heap r).content) :
    ∃ s',
      UPath.write_bytes s src c = .ok (c.length, s') ∧
      (UPath.read_bytes s' dst).map Prod.fst =
        .ok (c ++ (heapGet s.heap r).content.drop c.length) ∧
      (UPath.read_bytes s' dst).map Prod.fst ≠ .ok ((heapGet s.heap r).content) ∧
      (UPath.read_bytes s' dst).map Prod.fst = (UPath.read_bytes s' src).map Prod.fst := by
  have hopen : Memory.open' s src .wb =
      .ok (s.cfd,
        { s with cfd := s.cfd + 1
                 fds := aset s.fds s.cfd
                   { path := src, buf := (heapGet s.heap r).content, pos := 0 } }) := by
    simp [Memory.open', h1, h3, h4, hty, Mode.isR, Mode.isA]
  have hgs : ∀ v, heapGet (heapSet s.heap r v) r = v :=
    fun v => heapGet_heapSet_self _ _ _ hr
  have hss : ∀ v w, heapSet (heapSet s.heap r v) r w = heapSet s.heap r w := by
    intro v w; simp [heapSet]
  have hwb : UPath.write_bytes s src c =
      .ok (c.length,
        { heap := heapSet s.heap r
            { info := { ftype := FType.file
                        size := (c ++ (heapGet s.heap r).content.drop c.length).length }
              content := c ++ (heapGet s.heap r).content.drop c.length }
          inodes := s.inodes
          dirs := s.dirs
          cfd := s.cfd + 1
          fds := aerase (aset (aset s.fds s.cfd
                    { path := src, buf := (heapGet s.heap r).content, pos := 0 }) s.cfd
                    { path := src, buf := c ++ (heapGet s.heap r).content.drop c.length,
                      pos := 0 + c.length }) s.cfd }) := by
    simp only [UPath.write_bytes, mbind, hopen, Memory.write, Memory.close, alookup_aset_self,
      bytesWrite_zero, h1, hgs, hss, hty]
  refine ⟨_, hwb, ?_, ?_, ?_⟩
  · simp [UPath.read_bytes, mbind, Memory.open', Memory.read, Memory.close, h2, h5, h6,
      alookup_aset_self, hgs, hss, Mode.isR, Mode.isA, Except.map]
  · simp [UPath.read_bytes, mbind, Memory.open', Memory.read, Memory.close, h2, h5, h6,
      alookup_aset_self, hgs, hss, Mode.isR, Mode.isA, Except.map, hne]
  · simp [UPath.read_bytes, mbind, Memory.open', Memory.read, Memory.close, h1, h2, h3, h4,
      h5, h6, alookup_aset_self, hgs, hss, Mode.isR, Mode.isA, Except.map]

/-- C9 witness: the aliasing theorem applied to the concrete pair produced
by Memory.copy from a three-byte file, writing the single byte 7. -/
theorem C9_memory_copy_aliases_witness :
    Memory.copy c9Base ["s"] ["d"] = .ok ((), c9Aliased) ∧
    ∃ s',
      UPath.write_bytes c9Aliased ["s"] [7] = .ok (1, s') ∧
      (UPath.read_bytes s' ["d"]).map Prod.fst = .ok [7, 2, 3] ∧
      (UPath.read_bytes s' ["d"]).map Prod.fst ≠ .ok [1, 2, 3] ∧
      (UPath.read_bytes s' ["d"]).map Prod.fst = (UPath.read_bytes s' ["s"]).map Prod.fst :=
  ⟨rfl, C9_memory_copy_aliases c9Aliased ["s"] ["d"] [] [] ["s", "d"] ["s", "d"] 1 [7]
    rfl rfl (by decide) rfl rfl rfl rfl rfl (by decide)⟩

end Ufs
